import Mathlib

/-!
Verification of the esport-signal pipeline core.

This file is a shallow embedding, in Lean 4, of the parts of the
esport-signal repository that the verified properties talk about:

* the team resolver (`src/matching/team_resolver.rs`): name
  normalization and market-to-live-match resolution;
* the live-data adapter (`src/api/live_data.rs`): the building-state
  bitmask decoder and the crossed counter assignment;
* the market adapter (`src/api/polymarket.rs`): conversion of a raw
  market response into a `PolymarketMarket`;
* the signal processor (`src/workers/signal_processor.rs`): signal-type
  classification and the win-probability model;
* the market scanner (`src/workers/market_scanner.rs`): the
  replace-on-success / keep-on-failure scan step;
* the live fetcher (`src/workers/live_fetcher.rs`): the per-pass
  match cache diffing that decides `previous_state`;
* the signal model and store (`src/models/signal.rs`,
  `src/db/signals.rs`): the string codecs for the closed enums.

Rust `f64` values are modelled as rationals (all arithmetic the
properties exercise is exact), machine integers as `Int` with explicit
reduction modulo `2 ^ 32` where a cast truncates, string operations
(`to_lowercase`, `trim`) as explicit functions on the character list of
a Lean `String`, and fallible operations as `Option` / `Except`.
-/

namespace EsportSignal

/-! ## Rust string primitives

`to_lowercase` is modelled character-wise with `Char.toLower` (the
names the program compares are ASCII); `trim` drops whitespace from
both ends of the character list, front first, exactly as `str::trim`
does. -/

/-- Model of Rust `str::to_lowercase`: lowercase every character. -/
def rustLower (s : String) : String :=
  ⟨s.data.map Char.toLower⟩

/-- Characters removed by `str::trim`, modelled by `Char.isWhitespace`. -/
def wsChar (c : Char) : Bool :=
  c.isWhitespace

/-- Trim a character list: drop whitespace from the front, then from the back. -/
def trimChars (l : List Char) : List Char :=
  ((l.dropWhile wsChar).reverse.dropWhile wsChar).reverse

/-- Model of Rust `str::trim`. -/
def rustTrim (s : String) : String :=
  ⟨trimChars s.data⟩

/-! ## Signal model (`src/models/signal.rs`) -/

/-- `SignalType` from `src/models/signal.rs`. -/
inductive SignalType where
  | periodicUpdate
  | firstBlood
  | killSpree
  | towerKill
  | barracksKill
  | roshanKill
  | goldSwing
  | gameStart
  | lateGame
  deriving DecidableEq, Repr

/-- `SignalType::as_str`. -/
def SignalType.as_str : SignalType → String
  | .periodicUpdate => "periodic_update"
  | .firstBlood => "first_blood"
  | .killSpree => "kill_spree"
  | .towerKill => "tower_kill"
  | .barracksKill => "barracks_kill"
  | .roshanKill => "roshan_kill"
  | .goldSwing => "gold_swing"
  | .gameStart => "game_start"
  | .lateGame => "late_game"

/-- `SignalStrength` from `src/models/signal.rs`. -/
inductive SignalStrength where
  | weak
  | moderate
  | strong
  | veryStrong
  deriving DecidableEq, Repr

/-- `SignalStrength::from_edge` (`src/models/signal.rs` lines 99-110):
strict `<` comparisons of `|edge|` against 0.03, 0.07, 0.12. -/
def SignalStrength.from_edge (edge : ℚ) : SignalStrength :=
  let abs_edge := |edge|
  if abs_edge < 3 / 100 then .weak
  else if abs_edge < 7 / 100 then .moderate
  else if abs_edge < 12 / 100 then .strong
  else .veryStrong

/-- `SignalStrength::as_str`. -/
def SignalStrength.as_str : SignalStrength → String
  | .weak => "weak"
  | .moderate => "moderate"
  | .strong => "strong"
  | .veryStrong => "very_strong"

/-- `parse_signal_type` from `src/db/signals.rs` lines 231-244: unknown
strings fall back to `periodic_update`. -/
def parse_signal_type (s : String) : SignalType :=
  if s = "periodic_update" then .periodicUpdate
  else if s = "first_blood" then .firstBlood
  else if s = "kill_spree" then .killSpree
  else if s = "tower_kill" then .towerKill
  else if s = "barracks_kill" then .barracksKill
  else if s = "roshan_kill" then .roshanKill
  else if s = "gold_swing" then .goldSwing
  else if s = "game_start" then .gameStart
  else if s = "late_game" then .lateGame
  else .periodicUpdate

/-- `parse_signal_strength` from `src/db/signals.rs` lines 246-254:
unknown strings fall back to `weak`. -/
def parse_signal_strength (s : String) : SignalStrength :=
  if s = "weak" then .weak
  else if s = "moderate" then .moderate
  else if s = "strong" then .strong
  else if s = "very_strong" then .veryStrong
  else .weak

/-! ## Data model (`src/models/match_state.rs`, `src/models/market.rs`)

`DateTime<Utc>` timestamps are modelled as `Int` (an instant); they are
carried but never interpreted by the verified code paths. -/

/-- `TeamState` from `src/models/match_state.rs`: name, optional team
id, kill count, enemy towers destroyed, enemy barracks destroyed. -/
structure TeamState where
  name : String
  team_id : Option Int
  kills : Int
  towers_killed : Int
  barracks_killed : Int
  deriving DecidableEq, Repr

/-- `LiveMatchState` from `src/models/match_state.rs`. -/
structure LiveMatchState where
  match_id : Int
  league_name : Option String
  radiant : TeamState
  dire : TeamState
  gold_lead : Int
  game_time : Int
  is_live : Bool
  updated_at : Int
  deriving DecidableEq, Repr

/-- `MatchUpdate` from `src/models/match_state.rs`: the event the live
fetcher sends to the signal processor. -/
structure MatchUpdate where
  market_condition_id : String
  state : LiveMatchState
  previous_state : Option LiveMatchState
  deriving DecidableEq, Repr

/-- `PolymarketMarket` from `src/models/market.rs`; odds and liquidity
are `f64` values modelled as rationals, `end_date` as an optional
instant. -/
structure PolymarketMarket where
  condition_id : String
  question : String
  team_a : String
  team_b : String
  team_a_odds : ℚ
  team_b_odds : ℚ
  liquidity : ℚ
  end_date : Option Int
  active : Bool
  deriving DecidableEq, Repr

/-! ## Team resolver (`src/matching/team_resolver.rs`)

The `HashMap<String, String>` alias table is modelled as a function
`String → Option String`; `add_alias` is insertion into that map. -/

/-- `TeamResolver`: the alias → canonical map. -/
structure TeamResolver where
  aliases : String → Option String

/-- `TeamResolver::new`: no aliases. -/
def TeamResolver.new : TeamResolver :=
  ⟨fun _ => none⟩

/-- `TeamResolver::add_alias` (`team_resolver.rs` lines 136-139): insert
`alias.to_lowercase() → canonical.to_lowercase()`. -/
def TeamResolver.add_alias (r : TeamResolver) (al canonical : String) : TeamResolver :=
  ⟨fun x => if x = rustLower al then some (rustLower canonical) else r.aliases x⟩

/-- The pure part of `TeamResolver::load_from_file` (`team_resolver.rs`
lines 55-67): for each entry, map the lowercased canonical to itself,
then every lowercased alias to it. File reading and JSON decoding are
out of scope; the decoded configuration is the input. -/
def TeamResolver.load_from_entries (teams : List (String × List String)) : TeamResolver :=
  teams.foldl
    (fun r entry =>
      let canonical := rustLower entry.1
      let r1 : TeamResolver := ⟨fun x => if x = canonical then some canonical else r.aliases x⟩
      entry.2.foldl
        (fun r2 al => ⟨fun x => if x = rustLower al then some canonical else r2.aliases x⟩)
        r1)
    TeamResolver.new

/-- `TeamResolver::normalize` (`team_resolver.rs` lines 75-82):
lowercase, trim, then look up the alias map, returning the trimmed
lowercase name itself on a miss. -/
def TeamResolver.normalize (r : TeamResolver) (name : String) : String :=
  match r.aliases (rustTrim (rustLower name)) with
  | some canonical => canonical
  | none => rustTrim (rustLower name)

/-- `TeamResolver::names_match` (`team_resolver.rs` lines 85-87). -/
def TeamResolver.names_match (r : TeamResolver) (name_a name_b : String) : Bool :=
  r.normalize name_a == r.normalize name_b

/-- `MatchResult` from `src/matching/team_resolver.rs`. -/
structure MatchResult where
  market : PolymarketMarket
  match_state : LiveMatchState
  market_team_a_is_radiant : Bool
  deriving DecidableEq, Repr

/-- `TeamResolver::match_market_to_live` (`team_resolver.rs` lines
90-133): scan the live matches in order and return the first whose
normalized radiant/dire names match the normalized market names in
either orientation, flagging which orientation hit. -/
def TeamResolver.match_market_to_live (r : TeamResolver) (market : PolymarketMarket) :
    List LiveMatchState → Option MatchResult
  | [] => none
  | live_match :: rest =>
    if (r.normalize market.team_a == r.normalize live_match.radiant.name &&
          r.normalize market.team_b == r.normalize live_match.dire.name) ||
        (r.normalize market.team_a == r.normalize live_match.dire.name &&
          r.normalize market.team_b == r.normalize live_match.radiant.name) then
      some ⟨market, live_match,
        r.normalize market.team_a == r.normalize live_match.radiant.name &&
          r.normalize market.team_b == r.normalize live_match.dire.name⟩
    else
      r.match_market_to_live market rest

/-! ## Live-data adapter (`src/api/live_data.rs`) -/

/-- Population count of a 32-bit value (`u32::count_ones`). -/
def popcount (n : Nat) : Nat :=
  (List.range 32).countP (fun i => n.testBit i)

/-- `OpenDotaLiveMatch` from `src/api/live_data.rs`: the decoded JSON
record. `match_id` is the raw decimal string; `building_state` is the
packed `i64` bitmask. -/
structure OpenDotaLiveMatch where
  match_id : String
  league_id : Int
  team_name_radiant : Option String
  team_name_dire : Option String
  team_id_radiant : Option Int
  team_id_dire : Option Int
  radiant_score : Option Int
  dire_score : Option Int
  radiant_lead : Option Int
  game_time : Option Int
  building_state : Option Int
  deriving DecidableEq, Repr

/-- `LiveDataClient::parse_building_state` (`live_data.rs` lines
123-152). The `i64` is cast to `u32` (low 32 bits); the function masks
bit ranges with the shifts the code uses — 0, 11, 18, 29 — counts set
bits and returns destroyed counts as
(radiant towers, dire towers, radiant barracks, dire barracks). -/
def parse_building_state (state : Option Int) : Int × Int × Int × Int :=
  match state with
  | none => (0, 0, 0, 0)
  | some s =>
    let st : Nat := (s % 2 ^ 32).toNat
    let radiant_towers := st &&& 0x7FF
    let radiant_rax := (st >>> 11) &&& 0x3F
    let dire_towers := (st >>> 18) &&& 0x7FF
    let dire_rax := (st >>> 29) &&& 0x3F
    let radiant_towers_destroyed : Int := 11 - popcount radiant_towers
    let dire_towers_destroyed : Int := 11 - popcount dire_towers
    let radiant_rax_destroyed : Int := 6 - popcount radiant_rax
    let dire_rax_destroyed : Int := 6 - popcount dire_rax
    (radiant_towers_destroyed, dire_towers_destroyed,
      radiant_rax_destroyed, dire_rax_destroyed)

/-- `LiveDataClient::convert_match` (`live_data.rs` lines 88-119).
`data.match_id.parse().unwrap_or(0)` is modelled by an explicit integer
parser argument, `Utc::now()` by the `now` argument. The building
counters are assigned crossed: each team's counters hold the enemy
side's destroyed buildings. -/
def convert_match (parseI64 : String → Option Int) (now : Int)
    (data : OpenDotaLiveMatch) : LiveMatchState :=
  let mid := (parseI64 data.match_id).getD 0
  let counts := parse_building_state data.building_state
  let radiant_towers_killed := counts.1
  let dire_towers_killed := counts.2.1
  let radiant_rax_killed := counts.2.2.1
  let dire_rax_killed := counts.2.2.2
  { match_id := mid
    league_name := none
    radiant :=
      { name := data.team_name_radiant.getD "Radiant"
        team_id := data.team_id_radiant
        kills := data.radiant_score.getD 0
        towers_killed := dire_towers_killed
        barracks_killed := dire_rax_killed }
    dire :=
      { name := data.team_name_dire.getD "Dire"
        team_id := data.team_id_dire
        kills := data.dire_score.getD 0
        towers_killed := radiant_towers_killed
        barracks_killed := radiant_rax_killed }
    gold_lead := data.radiant_lead.getD 0
    game_time := data.game_time.getD 0
    is_live := true
    updated_at := now }

/-- The building-state decoding the spec (§4.2) and the decoder's own
comment block prescribe: alive masks at bits 0..10 (radiant towers),
11..16 (radiant barracks), 17..27 (dire towers), 28..33 (dire
barracks); destroyed = capacity − popcount(alive). Stated here as the
claim's reference decoder, to be compared with `parse_building_state`.
Tuple order matches the code's return:
(radiant towers, dire towers, radiant barracks, dire barracks). -/
def building_decode_spec (v : Nat) : Int × Int × Int × Int :=
  ((11 : Int) - popcount (v &&& 0x7FF),
    (11 : Int) - popcount ((v >>> 17) &&& 0x7FF),
    (6 : Int) - popcount ((v >>> 11) &&& 0x3F),
    (6 : Int) - popcount ((v >>> 28) &&& 0x3F))

/-! ## Signal processor (`src/workers/signal_processor.rs`)

`signal_processor.rs` dereferences `state.radiant.net_worth` and
`state.dire.net_worth`, fields that do not exist on `TeamState` in
`src/models/match_state.rs` (they belong to the stratz-era variant of
the model, `src/api/stratz.rs` lines 206-233). The structures below
model the state shape the processor's code actually reads — the current
model's fields plus the `net_worth` field the code dereferences — so
the processor's arithmetic can be evaluated and compared against the
spec's reference model, which uses `gold_lead`. -/

/-- Team state as read by the signal processor: `TeamState` of
`match_state.rs` plus the `net_worth` field the processor dereferences
(present only in the stratz-era variant of `TeamState`). -/
structure TeamStateNW where
  name : String
  team_id : Option Int
  kills : Int
  net_worth : Int
  towers_killed : Int
  barracks_killed : Int
  deriving DecidableEq, Repr

/-- Match state as read by the signal processor: `gold_lead` from the
current `LiveMatchState` model, team states with `net_worth`. -/
structure ProcMatchState where
  match_id : Int
  radiant : TeamStateNW
  dire : TeamStateNW
  gold_lead : Int
  game_time : Int
  deriving DecidableEq, Repr

/-- Rust `f64::clamp(lo, hi)`. -/
def rclamp (x lo hi : ℚ) : ℚ :=
  if x < lo then lo else if x > hi then hi else x

/-- `SignalProcessorWorker::calculate_win_probability`
(`signal_processor.rs` lines 172-198): 0.5 plus 0.005 per kill of
advantage, 0.01 per 1000 of net-worth difference, 0.03 per tower, 0.08
per barracks; the deviation from 0.5 is amplified by
`1 + 0.5 * min(game_time / 2400, 1)` and the result clamped to
[0.05, 0.95]. The gold factor reads `net_worth`, not `gold_lead`. -/
def calculate_win_probability (state : ProcMatchState) : ℚ :=
  let score0 : ℚ := 1 / 2
  let kill_diff : Int := state.radiant.kills - state.dire.kills
  let score1 := score0 + (kill_diff : ℚ) * (5 / 1000)
  let gold_diff : Int := state.radiant.net_worth - state.dire.net_worth
  let score2 := score1 + ((gold_diff : ℚ) / 1000) * (1 / 100)
  let tower_diff : Int := state.radiant.towers_killed - state.dire.towers_killed
  let score3 := score2 + (tower_diff : ℚ) * (3 / 100)
  let rax_diff : Int := state.radiant.barracks_killed - state.dire.barracks_killed
  let score4 := score3 + (rax_diff : ℚ) * (8 / 100)
  let game_progress : ℚ := min ((state.game_time : ℚ) / 2400) 1
  let deviation_from_50 := score4 - 1 / 2
  let score5 := 1 / 2 + deviation_from_50 * (1 + game_progress * (1 / 2))
  rclamp score5 (5 / 100) (95 / 100)

/-- The win-probability reference model of spec §4.8 step 3, stated
from the spec's words for comparison with
`calculate_win_probability`: identical except that the gold factor is
`0.01 * (gold_lead / 1000)`. -/
def win_probability_spec (state : ProcMatchState) : ℚ :=
  let score0 : ℚ := 1 / 2
  let kill_diff : Int := state.radiant.kills - state.dire.kills
  let score1 := score0 + (kill_diff : ℚ) * (5 / 1000)
  let score2 := score1 + ((state.gold_lead : ℚ) / 1000) * (1 / 100)
  let tower_diff : Int := state.radiant.towers_killed - state.dire.towers_killed
  let score3 := score2 + (tower_diff : ℚ) * (3 / 100)
  let rax_diff : Int := state.radiant.barracks_killed - state.dire.barracks_killed
  let score4 := score3 + (rax_diff : ℚ) * (8 / 100)
  let game_progress : ℚ := min ((state.game_time : ℚ) / 2400) 1
  let deviation_from_50 := score4 - 1 / 2
  let score5 := 1 / 2 + deviation_from_50 * (1 + game_progress * (1 / 2))
  rclamp score5 (5 / 100) (95 / 100)

/-- `SignalProcessorWorker::detect_signal_type` (`signal_processor.rs`
lines 121-168): priority order is game start, barracks kill, tower
kill, kill spree, gold swing, late game, periodic update. The gold
swing test compares the change of the `net_worth` difference, not of
`gold_lead`. -/
def detect_signal_type (current : ProcMatchState) (previous : Option ProcMatchState) :
    SignalType :=
  match previous with
  | none => .gameStart
  | some previous =>
    let rax_diff := (current.radiant.barracks_killed - previous.radiant.barracks_killed)
      + (current.dire.barracks_killed - previous.dire.barracks_killed)
    if rax_diff > 0 then .barracksKill
    else
      let tower_diff := (current.radiant.towers_killed - previous.radiant.towers_killed)
        + (current.dire.towers_killed - previous.dire.towers_killed)
      if tower_diff > 0 then .towerKill
      else
        let kill_diff := (current.radiant.kills - previous.radiant.kills)
          + (current.dire.kills - previous.dire.kills)
        if kill_diff ≥ 5 then .killSpree
        else
          let current_nw_diff := current.radiant.net_worth - current.dire.net_worth
          let previous_nw_diff := previous.radiant.net_worth - previous.dire.net_worth
          let nw_swing := (current_nw_diff - previous_nw_diff).natAbs
          if nw_swing ≥ 5000 then .goldSwing
          else if current.game_time > 2100 ∧ previous.game_time ≤ 2100 then .lateGame
          else .periodicUpdate

/-! ## Market adapter (`src/api/polymarket.rs`)

`convert_market` consumes a `MarketResponse` whose `outcomes` and
`outcome_prices` fields are JSON-encoded arrays inside strings. The
two `serde_json::from_str::<Vec<String>>` results are modelled as the
already-decoded `Option (List String)` (`none` = decode failure); the
numeric and date string parsers (`str::parse::<f64>`,
`DateTime::parse_from_rfc3339`, `NaiveDate::parse_from_str` at
midnight UTC) are explicit function arguments, bundled in
`StrParsers`. -/

/-- The string parsers `convert_market` relies on. `parseF64` models
`str::parse::<f64>` (also used for the liquidity string); the two date
parsers return an instant, `parseYmdMidnight` already at midnight
UTC. -/
structure StrParsers where
  parseF64 : String → Option ℚ
  parseRfc3339 : String → Option Int
  parseYmdMidnight : String → Option Int

/-- `MarketResponse` from `src/api/polymarket.rs`, with `outcomes` and
`outcome_prices` as their decoded JSON arrays (`none` when the embedded
JSON fails to decode). -/
structure MarketResponse where
  condition_id : String
  question : String
  outcomes : Option (List String)
  outcome_prices : Option (List String)
  liquidity : Option String
  liquidity_num : Option ℚ
  active : Bool
  closed : Bool
  end_date_iso : Option String
  sports_market_type : Option String

/-- `PolymarketClient::convert_market` (`polymarket.rs` lines 179-225):
require both embedded arrays to decode and to have exactly two entries,
parse both prices, trim both team names; liquidity falls back from
`liquidity_num` to the parsed `liquidity` string to 0; the end date is
RFC 3339, else `YYYY-MM-DD` at midnight, else `none`. -/
def convert_market (P : StrParsers) (market : MarketResponse) : Option PolymarketMarket :=
  match market.outcomes, market.outcome_prices with
  | some outcomes, some outcome_prices =>
    if outcomes.length = 2 ∧ outcome_prices.length = 2 then
      match outcomes.get? 0, outcomes.get? 1,
          outcome_prices.get? 0, outcome_prices.get? 1 with
      | some o0, some o1, some p0, some p1 =>
        match P.parseF64 p0, P.parseF64 p1 with
        | some team_a_odds, some team_b_odds =>
          some
            { condition_id := market.condition_id
              question := market.question
              team_a := rustTrim o0
              team_b := rustTrim o1
              team_a_odds := team_a_odds
              team_b_odds := team_b_odds
              liquidity :=
                (market.liquidity_num.orElse
                  (fun _ => market.liquidity.bind P.parseF64)).getD 0
              end_date :=
                market.end_date_iso.bind
                  (fun d => (P.parseRfc3339 d).orElse (fun _ => P.parseYmdMidnight d))
              active := market.active && !market.closed }
        | _, _ => none
      | _, _, _, _ => none
    else none
  | _, _ => none

/-! ## Market scanner (`src/workers/market_scanner.rs`)

`ActiveMarkets` (`HashMap<String, PolymarketMarket>`) is modelled as a
function from condition id to an optional market. One `scan` receives
the adapter call's outcome as an `Except`. -/

/-- The active-market map. -/
def ActiveMarkets : Type :=
  String → Option PolymarketMarket

/-- The empty (cleared) market map. -/
def ActiveMarkets.empty : ActiveMarkets :=
  fun _ => none

/-- `HashMap::insert` on the market map. -/
def ActiveMarkets.insert (m : ActiveMarkets) (k : String) (v : PolymarketMarket) :
    ActiveMarkets :=
  fun x => if x = k then some v else m x

/-- `MarketScannerWorker::scan` (`market_scanner.rs` lines 53-79): on a
successful adapter call, clear the map and insert every returned market
under its condition id; on failure, leave the map as it was. -/
def scan (active : ActiveMarkets) (result : Except Unit (List PolymarketMarket)) :
    ActiveMarkets :=
  match result with
  | .ok markets =>
    markets.foldl (fun acc market => acc.insert market.condition_id market)
      ActiveMarkets.empty
  | .error _ => active

/-! ## Live fetcher (`src/workers/live_fetcher.rs`)

`LiveMatchCache` (`HashMap<i64, LiveMatchState>`) is modelled as a
function from match id to an optional state. One `fetch` pass receives
the markets in the iteration order of `markets.values()` and the live
adapter call's outcome; a run is a sequence of passes threading the
cache, with the emitted `MatchUpdate`s concatenated in order. -/

/-- The match cache. -/
def LiveMatchCache : Type :=
  Int → Option LiveMatchState

/-- The empty match cache (process start). -/
def LiveMatchCache.empty : LiveMatchCache :=
  fun _ => none

/-- The per-market body of the `fetch` loop (`live_fetcher.rs` lines
88-111): for each market that resolves to a live match, read the cached
previous state, overwrite the cache with the current state, and emit a
`MatchUpdate`. -/
def fetch_loop (r : TeamResolver) (live_matches : List LiveMatchState) :
    List PolymarketMarket → LiveMatchCache → LiveMatchCache × List MatchUpdate
  | [], cache => (cache, [])
  | market :: rest, cache =>
    match r.match_market_to_live market live_matches with
    | none => fetch_loop r live_matches rest cache
    | some match_result =>
      let mid := match_result.match_state.match_id
      let previous_state := cache mid
      let cache1 : LiveMatchCache :=
        fun k => if k = mid then some match_result.match_state else cache k
      let update : MatchUpdate :=
        ⟨market.condition_id, match_result.match_state, previous_state⟩
      let res := fetch_loop r live_matches rest cache1
      (res.1, update :: res.2)

/-- `LiveFetcherWorker::fetch` (`live_fetcher.rs` lines 55-112): skip
the pass when no market is active, when the live adapter call fails, or
when it returns no matches; otherwise run the matching loop. -/
def fetch_pass (r : TeamResolver) (markets : List PolymarketMarket)
    (fetched : Except Unit (List LiveMatchState)) (cache : LiveMatchCache) :
    LiveMatchCache × List MatchUpdate :=
  if markets.isEmpty then (cache, [])
  else
    match fetched with
    | .error _ => (cache, [])
    | .ok live_matches =>
      if live_matches.isEmpty then (cache, [])
      else fetch_loop r live_matches markets cache

/-- A sequence of fetcher passes: each pass sees the active markets of
its moment and the live adapter's outcome; the cache threads through,
and the update channel carries the concatenated emissions. -/
def run_passes (r : TeamResolver) :
    List (List PolymarketMarket × Except Unit (List LiveMatchState)) →
    LiveMatchCache → LiveMatchCache × List MatchUpdate
  | [], cache => (cache, [])
  | (markets, fetched) :: rest, cache =>
    let p := fetch_pass r markets fetched cache
    let q := run_passes r rest p.1
    (q.1, p.2 ++ q.2)

/-! ## Concrete inputs used by the settled claims -/

/-- A processor state with a 10000 gold lead recorded in `gold_lead`
and zero in every other factor (fresh `net_worth` fields, no kills, no
buildings, minute zero). -/
def goldLeadState : ProcMatchState :=
  { match_id := 7
    radiant :=
      { name := "a", team_id := none, kills := 0, net_worth := 0
        towers_killed := 0, barracks_killed := 0 }
    dire :=
      { name := "b", team_id := none, kills := 0, net_worth := 0
        towers_killed := 0, barracks_killed := 0 }
    gold_lead := 10000
    game_time := 0 }

/-- The previous snapshot for the gold-swing probe: `gold_lead` 0,
minute 10, otherwise equal to `goldSwingCurrent`. -/
def goldSwingPrevious : ProcMatchState :=
  { match_id := 7
    radiant :=
      { name := "a", team_id := none, kills := 4, net_worth := 0
        towers_killed := 1, barracks_killed := 0 }
    dire :=
      { name := "b", team_id := none, kills := 2, net_worth := 0
        towers_killed := 0, barracks_killed := 0 }
    gold_lead := 0
    game_time := 600 }

/-- The current snapshot for the gold-swing probe: `gold_lead` jumped
by 6000 while every counter and both `net_worth` fields are unchanged. -/
def goldSwingCurrent : ProcMatchState :=
  { match_id := 7
    radiant :=
      { name := "a", team_id := none, kills := 4, net_worth := 0
        towers_killed := 1, barracks_killed := 0 }
    dire :=
      { name := "b", team_id := none, kills := 2, net_worth := 0
        towers_killed := 0, barracks_killed := 0 }
    gold_lead := 6000
    game_time := 605 }

/-! ## C1: building-state decoding -/

/-- C1. The decoder does not read the layout the spec (and its own
comment block, `live_data.rs` lines 129-133) prescribe: dire towers are
shifted out at bit 18 instead of 17 and dire barracks at bit 29 instead
of 28 (on a value already truncated to 32 bits). On a bitmask with only
bit 17 set — one dire tower alive under the documented layout —
`parse_building_state` reports 11 dire towers destroyed where the
documented layout yields 10. -/
theorem parse_building_state_bit17_divergence :
    parse_building_state (some (2 ^ 17)) = (11, 11, 6, 6) ∧
      building_decode_spec (2 ^ 17) = (11, 10, 6, 6) ∧
      (convert_match (fun _ => some 7) 0
        { match_id := "7", league_id := 1, team_name_radiant := some "a"
          team_name_dire := some "b", team_id_radiant := none, team_id_dire := none
          radiant_score := some 0, dire_score := some 0, radiant_lead := some 0
          game_time := some 0,
          building_state := some (2 ^ 17) }).radiant.towers_killed = 11 := by
  refine ⟨by decide, by decide, ?_⟩
  decide

/-! ## C2: win-probability model -/

/-- C2. The processor's win probability does not equal the spec §4.8
reference model: the gold factor reads the difference of the
`net_worth` fields — which do not exist on `TeamState` in
`src/models/match_state.rs` and are never populated by the live-data
adapter — instead of `gold_lead`. On a state whose only nonzero factor
is a 10000 `gold_lead`, the code yields 0.5 while the reference model
yields 0.6. -/
theorem calculate_win_probability_ignores_gold_lead :
    calculate_win_probability goldLeadState = 1 / 2 ∧
      win_probability_spec goldLeadState = 3 / 5 := by
  constructor
  · norm_num [calculate_win_probability, rclamp, goldLeadState]
  · norm_num [win_probability_spec, rclamp, goldLeadState]

/-! ## C3: gold-swing classification -/

/-- C3. With no barracks delta, no tower delta and no kill spree, a
6000-gold jump of `gold_lead` does not produce a `gold_swing`: the
classifier compares the change of the `net_worth` difference (a field
absent from the current `TeamState`), which is zero here, and falls
through to `periodic_update`. -/
theorem detect_signal_type_ignores_gold_lead :
    detect_signal_type goldSwingCurrent (some goldSwingPrevious) =
        SignalType.periodicUpdate ∧
      5000 ≤ (goldSwingCurrent.gold_lead - goldSwingPrevious.gold_lead).natAbs ∧
      (goldSwingCurrent.radiant.barracks_killed -
            goldSwingPrevious.radiant.barracks_killed) +
          (goldSwingCurrent.dire.barracks_killed -
            goldSwingPrevious.dire.barracks_killed) = 0 ∧
      (goldSwingCurrent.radiant.towers_killed -
            goldSwingPrevious.radiant.towers_killed) +
          (goldSwingCurrent.dire.towers_killed -
            goldSwingPrevious.dire.towers_killed) = 0 ∧
      (goldSwingCurrent.radiant.kills - goldSwingPrevious.radiant.kills) +
          (goldSwingCurrent.dire.kills - goldSwingPrevious.dire.kills) < 5 := by
  refine ⟨?_, by decide, by decide, by decide, by decide⟩
  decide

/-! ## C7: strength boundaries -/

/-- C7 counterexample. At an edge of exactly 0.03 the code returns
`moderate`, not the claimed `weak`: the comparisons are strict `<`, so
the boundary belongs to the higher strength. -/
theorem from_edge_boundary_counterexample :
    SignalStrength.from_edge (3 / 100) = SignalStrength.moderate ∧
      SignalStrength.moderate ≠ SignalStrength.weak := by
  constructor
  · simp only [SignalStrength.from_edge]
    rw [abs_of_nonneg (by norm_num)]
    norm_num
  · decide

/-- C7 amended: at an edge whose absolute value is exactly a boundary,
`SignalStrength::from_edge` returns the higher of the two adjacent
strengths — `moderate` at 0.03, `strong` at 0.07, `very_strong` at
0.12. -/
theorem from_edge_boundary_is_higher_strength (e : ℚ) :
    (|e| = 3 / 100 → SignalStrength.from_edge e = SignalStrength.moderate) ∧
      (|e| = 7 / 100 → SignalStrength.from_edge e = SignalStrength.strong) ∧
      (|e| = 12 / 100 → SignalStrength.from_edge e = SignalStrength.veryStrong) := by
  refine ⟨fun h => ?_, fun h => ?_, fun h => ?_⟩ <;>
    · simp only [SignalStrength.from_edge, h]
      norm_num

/-- Witness for C7: the boundary edges −0.03, 0.07 and −0.12, via the
amended theorem. -/
theorem from_edge_boundary_is_higher_strength_witness :
    SignalStrength.from_edge (-(3 / 100)) = SignalStrength.moderate ∧
      SignalStrength.from_edge (7 / 100) = SignalStrength.strong ∧
      SignalStrength.from_edge (-(12 / 100)) = SignalStrength.veryStrong :=
  ⟨(from_edge_boundary_is_higher_strength (-(3 / 100))).1 (by
      rw [abs_of_nonpos (by norm_num)]; norm_num),
    (from_edge_boundary_is_higher_strength (7 / 100)).2.1 (by
      rw [abs_of_nonneg (by norm_num)]),
    (from_edge_boundary_is_higher_strength (-(12 / 100))).2.2 (by
      rw [abs_of_nonpos (by norm_num)]; norm_num)⟩

/-! ## C10: enum string codecs round-trip -/

/-- C10. The store's string encodings of the closed enums round-trip:
`parse_signal_type` inverts `SignalType::as_str` and
`parse_signal_strength` inverts `SignalStrength::as_str`, so a signal
read back from the store carries the type and strength it was inserted
with. -/
theorem signal_enum_string_round_trip :
    (∀ t : SignalType, parse_signal_type t.as_str = t) ∧
      ∀ st : SignalStrength, parse_signal_strength st.as_str = st := by
  constructor
  · intro t; cases t <;> rfl
  · intro st; cases st <;> rfl

/-! ## C9: scan replaces on success, keeps on failure -/

/-- Looking up `k` after folding inserts over a market list: the last
market in the list bearing condition id `k`, else whatever the starting
map held. -/
theorem foldl_insert_lookup (ms : List PolymarketMarket) (acc : ActiveMarkets)
    (k : String) :
    (ms.foldl (fun a m => a.insert m.condition_id m) acc) k =
      match (ms.filter (fun m => m.condition_id == k)).getLast? with
      | some m => some m
      | none => acc k := by
  induction ms generalizing acc with
  | nil => rfl
  | cons m ms ih =>
    rw [List.foldl_cons, ih, List.filter_cons]
    by_cases h : m.condition_id = k
    · simp only [h, beq_self_eq_true, if_pos]
      rw [List.getLast?_cons]
      cases hl : (ms.filter (fun x => x.condition_id == k)).getLast? with
      | some x => simp
      | none =>
        simp only [Option.getD_none]
        simp [ActiveMarkets.insert]
    · have hb : (m.condition_id == k) = false := by simp [h]
      simp only [hb, Bool.false_eq_true, if_neg, not_false_iff]
      cases hl : (ms.filter (fun x => x.condition_id == k)).getLast? with
      | some x => rfl
      | none =>
        show (acc.insert m.condition_id m) k = acc k
        simp only [ActiveMarkets.insert]
        exact if_neg (fun he => h he.symm)

/-- C9. One scanner pass: a failed adapter call leaves the map exactly
as it was; a successful call makes the map exactly the returned list
keyed by condition id — lookup of `k` yields the last returned market
with that id and nothing else, independent of the previous contents. -/
theorem scan_replaces_on_ok_keeps_on_error (active : ActiveMarkets)
    (markets : List PolymarketMarket) (e : Unit) :
    scan active (.error e) = active ∧
      ∀ k, scan active (.ok markets) k =
        (markets.filter (fun m => m.condition_id == k)).getLast? := by
  refine ⟨rfl, fun k => ?_⟩
  show (markets.foldl (fun a m => a.insert m.condition_id m) ActiveMarkets.empty) k = _
  rw [foldl_insert_lookup]
  cases (markets.filter (fun m => m.condition_id == k)).getLast? with
  | some x => rfl
  | none => rfl

/-! ## C6: normalization idempotence

Helper lemmas about the character-level model of `to_lowercase` and
`trim`, leading to the key fact that `trim (lower ·)` is idempotent. -/

/-- A valid scalar below the surrogate range survives `Char.ofNat`. -/
theorem char_toNat_ofNat (n : Nat) (h : n < 55296) : (Char.ofNat n).toNat = n := by
  unfold Char.ofNat
  split
  · rfl
  · rename_i hv
    exact absurd (Or.inl h) hv

/-- `Char.toLower` on an ASCII uppercase letter adds 32. -/
theorem toLower_of_upper (c : Char) (h : 65 ≤ c.toNat ∧ c.toNat ≤ 90) :
    c.toLower = Char.ofNat (c.toNat + 32) := by
  unfold Char.toLower
  exact if_pos h

/-- `Char.toLower` fixes everything that is not an ASCII uppercase letter. -/
theorem toLower_eq_self (c : Char) (h : ¬(65 ≤ c.toNat ∧ c.toNat ≤ 90)) :
    c.toLower = c := by
  unfold Char.toLower
  exact if_neg h

/-- `Char.toLower` is idempotent. -/
theorem toLower_toLower (c : Char) : c.toLower.toLower = c.toLower := by
  by_cases h : 65 ≤ c.toNat ∧ c.toNat ≤ 90
  · rw [toLower_of_upper c h]
    have h2 : (Char.ofNat (c.toNat + 32)).toNat = c.toNat + 32 :=
      char_toNat_ofNat _ (by omega)
    exact toLower_eq_self _ (by rw [h2]; omega)
  · rw [toLower_eq_self c h]
    exact toLower_eq_self c h

/-- No character at or above code point 65 is whitespace. -/
theorem ws_of_ge_65 (d : Char) (hd : 65 ≤ d.toNat) : d.isWhitespace = false := by
  unfold Char.isWhitespace
  have h32 : d ≠ ' ' := fun he => by rw [he] at hd; exact absurd hd (by decide)
  have h9 : d ≠ '\t' := fun he => by rw [he] at hd; exact absurd hd (by decide)
  have h13 : d ≠ '\x0d' := fun he => by rw [he] at hd; exact absurd hd (by decide)
  have h10 : d ≠ '\n' := fun he => by rw [he] at hd; exact absurd hd (by decide)
  simp [h32, h9, h13, h10]

/-- Lowercasing does not change whether a character is whitespace. -/
theorem wsChar_toLower (c : Char) : wsChar c.toLower = wsChar c := by
  unfold wsChar
  by_cases h : 65 ≤ c.toNat ∧ c.toNat ≤ 90
  · rw [toLower_of_upper c h]
    have h2 : (Char.ofNat (c.toNat + 32)).toNat = c.toNat + 32 :=
      char_toNat_ofNat _ (by omega)
    rw [ws_of_ge_65 _ (by rw [h2]; omega), ws_of_ge_65 _ (by omega)]
  · rw [toLower_eq_self c h]

/-- `dropWhile` is idempotent. -/
theorem dropWhile_dropWhile {α : Type} (p : α → Bool) (l : List α) :
    (l.dropWhile p).dropWhile p = l.dropWhile p := by
  induction l with
  | nil => rfl
  | cons a t ih =>
    rw [List.dropWhile_cons]
    by_cases h : p a = true
    · rw [if_pos h]
      exact ih
    · rw [if_neg h, List.dropWhile_cons, if_neg h]

/-- `dropWhile` never lengthens a list. -/
theorem length_dropWhile_le {α : Type} (p : α → Bool) (l : List α) :
    (l.dropWhile p).length ≤ l.length := by
  induction l with
  | nil => exact Nat.le_refl 0
  | cons a t ih =>
    rw [List.dropWhile_cons]
    by_cases h : p a = true
    · rw [if_pos h]
      exact Nat.le_succ_of_le ih
    · rw [if_neg h]

/-- A list fixed by `dropWhile p` and starting with `c` has `p c` false. -/
theorem head_not_of_dropWhile_fixed {α : Type} (p : α → Bool) (c : α) (cs : List α)
    (h : List.dropWhile p (c :: cs) = c :: cs) : p c = false := by
  by_cases hc : p c = true
  · rw [List.dropWhile_cons, if_pos hc] at h
    have := length_dropWhile_le p cs
    rw [h] at this
    simp at this
  · exact Bool.eq_false_iff.mpr hc

/-- Trimming is idempotent. -/
theorem trimChars_trimChars (l : List Char) : trimChars (trimChars l) = trimChars l := by
  unfold trimChars
  set f := l.dropWhile wsChar with hf
  have hff : f.dropWhile wsChar = f := by rw [hf]; exact dropWhile_dropWhile _ _
  set B := f.reverse.dropWhile wsChar with hB
  have hBB : B.dropWhile wsChar = B := by rw [hB]; exact dropWhile_dropWhile _ _
  have hsplit : f.reverse.takeWhile wsChar ++ B = f.reverse := by
    rw [hB]; exact List.takeWhile_append_dropWhile _ _
  have hpref : f = B.reverse ++ (f.reverse.takeWhile wsChar).reverse := by
    have := congrArg List.reverse hsplit
    rw [List.reverse_append, List.reverse_reverse] at this
    exact this.symm
  have hBrev : B.reverse.dropWhile wsChar = B.reverse := by
    cases hc : B.reverse with
    | nil => rfl
    | cons c cs =>
      have hf2 : List.dropWhile wsChar (c :: (cs ++ (f.reverse.takeWhile wsChar).reverse))
          = c :: (cs ++ (f.reverse.takeWhile wsChar).reverse) := by
        rw [← List.cons_append, ← hc, ← hpref]
        exact hff
      have hwc : wsChar c = false := head_not_of_dropWhile_fixed _ _ _ hf2
      rw [List.dropWhile_cons, if_neg (by simp [hwc])]
  rw [hBrev, List.reverse_reverse, hBB]

/-- Trimming commutes with character-wise lowercasing. -/
theorem trimChars_map_toLower (l : List Char) :
    trimChars (l.map Char.toLower) = (trimChars l).map Char.toLower := by
  unfold trimChars
  have hcomp : wsChar ∘ Char.toLower = wsChar := funext fun c => wsChar_toLower c
  rw [List.dropWhile_map, hcomp, ← List.map_reverse, List.dropWhile_map, hcomp,
    ← List.map_reverse]

/-- `rustLower` is idempotent. -/
theorem rustLower_rustLower (s : String) : rustLower (rustLower s) = rustLower s := by
  unfold rustLower
  rw [List.map_map]
  exact congrArg String.mk (List.map_congr_left fun c _ => toLower_toLower c)

/-- `rustTrim` is idempotent. -/
theorem rustTrim_rustTrim (s : String) : rustTrim (rustTrim s) = rustTrim s := by
  unfold rustTrim
  exact congrArg String.mk (trimChars_trimChars s.data)

/-- `rustLower` commutes with `rustTrim`. -/
theorem rustLower_rustTrim (s : String) :
    rustLower (rustTrim s) = rustTrim (rustLower s) := by
  unfold rustLower rustTrim
  exact congrArg String.mk (trimChars_map_toLower s.data).symm

/-- The key the resolver looks up is a fixed point of the key-forming
map `trim (lower ·)`. -/
theorem norm_key_fixed (s : String) :
    rustTrim (rustLower (rustTrim (rustLower s))) = rustTrim (rustLower s) := by
  rw [rustLower_rustTrim, rustLower_rustLower, rustTrim_rustTrim]

/-- C6 counterexample. A resolver whose stored canonical value carries
leading whitespace — here via `add_alias("ts", " team spirit")`, whose
canonical is lowercased but never trimmed — is not idempotent:
`normalize "ts"` returns the untrimmed canonical, and normalizing that
again trims it. -/
theorem normalize_not_idempotent_counterexample :
    ¬((TeamResolver.new.add_alias "ts" " team spirit").normalize
        ((TeamResolver.new.add_alias "ts" " team spirit").normalize "ts") =
      (TeamResolver.new.add_alias "ts" " team spirit").normalize "ts") := by
  decide

/-- C6 amended: `normalize` is idempotent for every resolver whose
stored canonical values are themselves fixed by `normalize` (in
particular, whenever no canonical in the alias table carries leading
or trailing whitespace). The counterexample shows the restriction is
needed: `load_from_file` and `add_alias` lowercase canonicals but do
not trim them. -/
theorem normalize_idempotent_of_canonicals_fixed (r : TeamResolver)
    (hv : ∀ a v, r.aliases a = some v → r.normalize v = v) (s : String) :
    r.normalize (r.normalize s) = r.normalize s := by
  unfold TeamResolver.normalize
  cases h : r.aliases (rustTrim (rustLower s)) with
  | some v =>
    have hfix := hv _ _ h
    unfold TeamResolver.normalize at hfix
    exact hfix
  | none =>
    rw [norm_key_fixed, h]

/-- Witness for C6: the empty resolver (no stored canonicals) is
idempotent on a raw mixed-case name. -/
theorem normalize_idempotent_witness :
    TeamResolver.new.normalize (TeamResolver.new.normalize "  Team SPIRIT  ") =
      TeamResolver.new.normalize "  Team SPIRIT  " :=
  normalize_idempotent_of_canonicals_fixed TeamResolver.new
    (fun _ _ h => Option.noConfusion h) "  Team SPIRIT  "

/-! ## C5: matching symmetry -/

/-- The market with `team_a` and `team_b` swapped. -/
def swapTeams (m : PolymarketMarket) : PolymarketMarket :=
  { m with team_a := m.team_b, team_b := m.team_a }

/-- A degenerate market whose two outcome labels normalize to the same
name. -/
def degenerateMarket : PolymarketMarket :=
  { condition_id := "c1", question := "q", team_a := "x", team_b := "x"
    team_a_odds := 0, team_b_odds := 0, liquidity := 0, end_date := none
    active := true }

/-- A live match whose two sides normalize to that same name. -/
def degenerateLive : LiveMatchState :=
  { match_id := 7, league_name := none
    radiant := { name := "x", team_id := none, kills := 0, towers_killed := 0
                 barracks_killed := 0 }
    dire := { name := "x", team_id := none, kills := 0, towers_killed := 0
              barracks_killed := 0 }
    gold_lead := 0, game_time := 0, is_live := true, updated_at := 0 }

/-- C5 counterexample. When both market teams normalize to the same
name as both sides of a live match, the resolver hits with
`market_team_a_is_radiant = true`, and hits with `true` again after the
swap — not `false` as the claim requires for every hit. -/
theorem match_symm_counterexample :
    (TeamResolver.new.match_market_to_live degenerateMarket
        [degenerateLive]).map (fun res => res.market_team_a_is_radiant) = some true ∧
      (TeamResolver.new.match_market_to_live (swapTeams degenerateMarket)
        [degenerateLive]).map (fun res => res.market_team_a_is_radiant) = some true := by
  constructor
  · rfl
  · rfl

/-- C5 amended: whenever the two market teams normalize to distinct
names, a hit with `market_team_a_is_radiant = true` turns, after
swapping `team_a` and `team_b`, into a hit on the same live match with
`market_team_a_is_radiant = false`. -/
theorem match_symm_amended (r : TeamResolver) (m : PolymarketMarket)
    (L : List LiveMatchState) (res : MatchResult)
    (hne : r.normalize m.team_a ≠ r.normalize m.team_b)
    (h : r.match_market_to_live m L = some res)
    (hflag : res.market_team_a_is_radiant = true) :
    ∃ res2, r.match_market_to_live (swapTeams m) L = some res2 ∧
      res2.match_state = res.match_state ∧
      res2.market_team_a_is_radiant = false := by
  induction L with
  | nil => exact absurd h (by simp [TeamResolver.match_market_to_live])
  | cons lv rest ih =>
    rw [TeamResolver.match_market_to_live] at h
    have hswap_a : (swapTeams m).team_a = m.team_b := rfl
    have hswap_b : (swapTeams m).team_b = m.team_a := rfl
    by_cases hcond :
        ((r.normalize m.team_a == r.normalize lv.radiant.name &&
            r.normalize m.team_b == r.normalize lv.dire.name) ||
          (r.normalize m.team_a == r.normalize lv.dire.name &&
            r.normalize m.team_b == r.normalize lv.radiant.name)) = true
    · rw [if_pos hcond] at h
      have hres := Option.some.inj h
      have hflag2 : (r.normalize m.team_a == r.normalize lv.radiant.name &&
          r.normalize m.team_b == r.normalize lv.dire.name) = true := by
        rw [← hres] at hflag
        exact hflag
      have har : r.normalize m.team_a = r.normalize lv.radiant.name := by
        have := (Bool.and_eq_true _ _).mp hflag2
        exact beq_iff_eq.mp this.1
      have hbd : r.normalize m.team_b = r.normalize lv.dire.name := by
        have := (Bool.and_eq_true _ _).mp hflag2
        exact beq_iff_eq.mp this.2
      refine ⟨⟨swapTeams m, lv,
          r.normalize (swapTeams m).team_a == r.normalize lv.radiant.name &&
            r.normalize (swapTeams m).team_b == r.normalize lv.dire.name⟩, ?_, ?_, ?_⟩
      · rw [TeamResolver.match_market_to_live, if_pos ?_]
        rw [hswap_a, hswap_b]
        have h1 : (r.normalize m.team_b == r.normalize lv.dire.name) = true := by
          simp [hbd]
        have h2 : (r.normalize m.team_a == r.normalize lv.radiant.name) = true := by
          simp [har]
        simp [h1, h2]
      · rw [← hres]
      · rw [hswap_a, hswap_b]
        have : (r.normalize m.team_b == r.normalize lv.radiant.name) = false := by
          rw [beq_eq_false_iff_ne]
          rw [← har]
          exact fun he => hne he.symm
        simp [this]
    · rw [if_neg hcond] at h
      obtain ⟨res2, h1, h2, h3⟩ := ih h
      refine ⟨res2, ?_, h2, h3⟩
      rw [TeamResolver.match_market_to_live, if_neg ?_, h1]
      intro hcond2
      apply hcond
      rw [hswap_a, hswap_b] at hcond2
      rcases (Bool.or_eq_true _ _).mp hcond2 with hc | hc
      · exact (Bool.or_eq_true _ _).mpr (Or.inr (by
          rw [Bool.and_comm] at hc
          exact hc))
      · exact (Bool.or_eq_true _ _).mpr (Or.inl (by
          rw [Bool.and_comm] at hc
          exact hc))

/-- A market on distinct teams for the C5 witness. -/
def abMarket : PolymarketMarket :=
  { condition_id := "c2", question := "q", team_a := "A", team_b := "B"
    team_a_odds := 0, team_b_odds := 0, liquidity := 0, end_date := none
    active := true }

/-- A live match with radiant `a` and dire `b` for the C5 witness. -/
def abLive : LiveMatchState :=
  { match_id := 9, league_name := none
    radiant := { name := "a", team_id := none, kills := 0, towers_killed := 0
                 barracks_killed := 0 }
    dire := { name := "b", team_id := none, kills := 0, towers_killed := 0
              barracks_killed := 0 }
    gold_lead := 0, game_time := 0, is_live := true, updated_at := 0 }

/-- Witness for C5: a concrete radiant-oriented hit flips to a
dire-oriented hit on the same live match after the swap. -/
theorem match_symm_amended_witness :
    ∃ res2, TeamResolver.new.match_market_to_live (swapTeams abMarket) [abLive] =
        some res2 ∧
      res2.match_state = (⟨abMarket, abLive, true⟩ : MatchResult).match_state ∧
      res2.market_team_a_is_radiant = false :=
  match_symm_amended TeamResolver.new abMarket [abLive] ⟨abMarket, abLive, true⟩
    (by decide) (by rfl) (by rfl)

/-! ## C8: market conversion shape -/

/-- Parsers for the C8 inputs: `parseF64` behaves like
`str::parse::<f64>` on the two price strings used — in particular it
accepts `1.5`, which is outside [0,1]. -/
def badPriceParsers : StrParsers :=
  { parseF64 := fun s =>
      if s = "1.5" then some (3 / 2) else if s = "0.2" then some (1 / 5) else none
    parseRfc3339 := fun _ => none
    parseYmdMidnight := fun _ => none }

/-- A two-outcome moneyline response whose first price string is
`1.5`. -/
def badPriceMarket : MarketResponse :=
  { condition_id := "c3", question := "q"
    outcomes := some ["A", "B"]
    outcome_prices := some ["1.5", "0.2"]
    liquidity := none, liquidity_num := none
    active := true, closed := false
    end_date_iso := none, sports_market_type := some "moneyline" }

/-- C8 counterexample. `convert_market` performs no range check on the
parsed prices: a price string of `1.5` yields a market with
`team_a_odds = 1.5 ∉ [0, 1]`. -/
theorem convert_market_odds_range_counterexample :
    (convert_market badPriceParsers badPriceMarket).map
        (fun pm => pm.team_a_odds) = some (3 / 2) ∧
      ¬((3 : ℚ) / 2 ≤ 1) := by
  constructor
  · rfl
  · norm_num

/-- C8 amended: every market the conversion step produces comes from
embedded arrays with exactly two outcomes and two prices, its odds are
exactly the two parsed price values (with no [0, 1] range check), and
its team names are the trimmed outcome labels; an input whose outcome
or price array does not have exactly two entries produces no market. -/
theorem convert_market_amended :
    (∀ (P : StrParsers) (m : MarketResponse) (pm : PolymarketMarket),
        convert_market P m = some pm →
          ∃ o0 o1 p0 p1,
            m.outcomes = some [o0, o1] ∧
            m.outcome_prices = some [p0, p1] ∧
            P.parseF64 p0 = some pm.team_a_odds ∧
            P.parseF64 p1 = some pm.team_b_odds ∧
            pm.team_a = rustTrim o0 ∧ pm.team_b = rustTrim o1) ∧
    (∀ (P : StrParsers) (m : MarketResponse) (os : List String),
        m.outcomes = some os → os.length ≠ 2 → convert_market P m = none) ∧
    (∀ (P : StrParsers) (m : MarketResponse) (ps : List String),
        m.outcome_prices = some ps → ps.length ≠ 2 → convert_market P m = none) := by
  refine ⟨?_, ?_, ?_⟩
  · intro P m pm h
    obtain ⟨cid, q, oo, op, liq, liqn, act, clo, edi, smt⟩ := m
    cases oo with
    | none => simp [convert_market] at h
    | some os =>
      cases op with
      | none => simp [convert_market] at h
      | some ps =>
        simp only [convert_market] at h
        split at h
        · rename_i hlen
          obtain ⟨o0, o1, rfl⟩ := List.length_eq_two.mp hlen.1
          obtain ⟨p0, p1, rfl⟩ := List.length_eq_two.mp hlen.2
          dsimp only [List.get?] at h
          cases hpa : P.parseF64 p0 with
          | none => rw [hpa] at h; simp at h
          | some qa =>
            cases hpb : P.parseF64 p1 with
            | none => rw [hpa, hpb] at h; simp at h
            | some qb =>
              rw [hpa, hpb] at h
              have hpm := Option.some.inj h
              refine ⟨o0, o1, p0, p1, rfl, rfl, ?_, ?_, ?_, ?_⟩
              · rw [← hpm, hpa]
              · rw [← hpm, hpb]
              · rw [← hpm]
              · rw [← hpm]
        · exact absurd h (by simp)
  · intro P m os hos hlen
    obtain ⟨cid, q, oo, op, liq, liqn, act, clo, edi, smt⟩ := m
    cases oo with
    | none => simp at hos
    | some os2 =>
      cases op with
      | none => simp [convert_market]
      | some ps =>
        have : os2 = os := by simpa using hos
        subst this
        simp only [convert_market]
        rw [if_neg]
        intro hc
        exact hlen hc.1
  · intro P m ps hps hlen
    obtain ⟨cid, q, oo, op, liq, liqn, act, clo, edi, smt⟩ := m
    cases oo with
    | none => simp [convert_market]
    | some os =>
      cases op with
      | none => simp at hps
      | some ps2 =>
        have : ps2 = ps := by simpa using hps
        subst this
        simp only [convert_market]
        rw [if_neg]
        intro hc
        exact hlen hc.2

/-- The market the C8 input converts to. -/
def badPriceConverted : PolymarketMarket :=
  { condition_id := "c3", question := "q", team_a := "A", team_b := "B"
    team_a_odds := 3 / 2, team_b_odds := 1 / 5, liquidity := 0
    end_date := none, active := true }

/-- Witness for C8: the concrete conversion of `badPriceMarket`
satisfies the amended shape. -/
theorem convert_market_amended_witness :
    ∃ o0 o1 p0 p1,
      badPriceMarket.outcomes = some [o0, o1] ∧
      badPriceMarket.outcome_prices = some [p0, p1] ∧
      badPriceParsers.parseF64 p0 = some badPriceConverted.team_a_odds ∧
      badPriceParsers.parseF64 p1 = some badPriceConverted.team_b_odds ∧
      badPriceConverted.team_a = rustTrim o0 ∧
      badPriceConverted.team_b = rustTrim o1 :=
  convert_market_amended.1 badPriceParsers badPriceMarket badPriceConverted rfl

/-! ## C4: previous_state and first observation

The cache evolves only by inserting each emitted update's state at its
match id; `consistent` captures exactly that discipline, relating a
starting cache to the trace emitted from it. -/

/-- The cache after recording one update: its state stored at its
match id. -/
def stepCache (c : LiveMatchCache) (u : MatchUpdate) : LiveMatchCache :=
  fun k => if k = u.state.match_id then some u.state else c k

/-- A trace is consistent with a starting cache when every update's
`previous_state` is the cache entry for its match id at its moment,
the cache evolving by `stepCache`. -/
def consistent : LiveMatchCache → List MatchUpdate → Prop
  | _, [] => True
  | c, u :: rest => u.previous_state = c u.state.match_id ∧ consistent (stepCache c u) rest

/-- Consistency concatenates: a trace from `c` followed by a trace
from the folded cache is a trace from `c`. -/
theorem consistent_append (t1 t2 : List MatchUpdate) (c : LiveMatchCache)
    (h1 : consistent c t1) (h2 : consistent (t1.foldl stepCache c) t2) :
    consistent c (t1 ++ t2) := by
  induction t1 generalizing c with
  | nil => exact h2
  | cons u rest ih =>
    rw [List.cons_append]
    exact ⟨h1.1, ih (stepCache c u) h1.2 h2⟩

/-- The fetch loop emits a consistent trace and returns the folded
cache. -/
theorem fetch_loop_consistent (r : TeamResolver) (lm : List LiveMatchState) :
    ∀ (mkts : List PolymarketMarket) (c : LiveMatchCache),
      consistent c (fetch_loop r lm mkts c).2 ∧
        (fetch_loop r lm mkts c).1 = (fetch_loop r lm mkts c).2.foldl stepCache c := by
  intro mkts
  induction mkts with
  | nil => exact fun c => ⟨trivial, rfl⟩
  | cons mk rest ih =>
    intro c
    rw [fetch_loop]
    cases hm : r.match_market_to_live mk lm with
    | none => exact ih c
    | some mr =>
      have hstep := ih (stepCache c ⟨mk.condition_id, mr.match_state, c mr.match_state.match_id⟩)
      refine ⟨⟨rfl, ?_⟩, ?_⟩
      · exact hstep.1
      · rw [List.foldl_cons]
        exact hstep.2

/-- One fetch pass emits a consistent trace and returns the folded
cache. -/
theorem fetch_pass_consistent (r : TeamResolver) (mkts : List PolymarketMarket)
    (fetched : Except Unit (List LiveMatchState)) (c : LiveMatchCache) :
    consistent c (fetch_pass r mkts fetched c).2 ∧
      (fetch_pass r mkts fetched c).1 = (fetch_pass r mkts fetched c).2.foldl stepCache c := by
  by_cases hm : mkts.isEmpty = true
  · have he : fetch_pass r mkts fetched c = (c, []) := by
      rw [fetch_pass.eq_def, if_pos hm]
    rw [he]
    exact ⟨trivial, rfl⟩
  · cases fetched with
    | error e =>
      have he : fetch_pass r mkts (Except.error e) c = (c, []) := by
        rw [fetch_pass.eq_def, if_neg hm]
      rw [he]
      exact ⟨trivial, rfl⟩
    | ok lm =>
      by_cases hl : lm.isEmpty = true
      · have he : fetch_pass r mkts (Except.ok lm) c = (c, []) := by
          rw [fetch_pass.eq_def, if_neg hm]
          dsimp only
          rw [if_pos hl]
        rw [he]
        exact ⟨trivial, rfl⟩
      · have he : fetch_pass r mkts (Except.ok lm) c = fetch_loop r lm mkts c := by
          rw [fetch_pass.eq_def, if_neg hm]
          dsimp only
          rw [if_neg hl]
        rw [he]
        exact fetch_loop_consistent r lm mkts c

/-- A whole run emits a consistent trace and returns the folded
cache. -/
theorem run_passes_consistent (r : TeamResolver) :
    ∀ (passes : List (List PolymarketMarket × Except Unit (List LiveMatchState)))
      (c : LiveMatchCache),
      consistent c (run_passes r passes c).2 ∧
        (run_passes r passes c).1 = (run_passes r passes c).2.foldl stepCache c := by
  intro passes
  induction passes with
  | nil => exact fun c => ⟨trivial, rfl⟩
  | cons pr rest ih =>
    intro c
    obtain ⟨mkts, fetched⟩ := pr
    rw [run_passes]
    have hp := fetch_pass_consistent r mkts fetched c
    have hr := ih (fetch_pass r mkts fetched c).1
    constructor
    · refine consistent_append _ _ _ hp.1 ?_
      rw [← hp.2]
      exact hr.1
    · rw [List.foldl_append, ← hp.2]
      exact hr.2

/-- In a consistent trace, the i-th update's `previous_state` is the
starting cache updated by the first i updates, read at the i-th
update's match id. -/
theorem consistent_get :
    ∀ (t : List MatchUpdate) (c : LiveMatchCache), consistent c t →
      ∀ (i : Nat) (h : i < t.length),
        (t.get ⟨i, h⟩).previous_state =
          ((t.take i).foldl stepCache c) ((t.get ⟨i, h⟩).state.match_id) := by
  intro t
  induction t with
  | nil => intro c _ i h; exact absurd h (by simp)
  | cons u rest ih =>
    intro c hc i h
    cases i with
    | zero => exact hc.1
    | succ j =>
      rw [List.take_succ_cons, List.foldl_cons]
      exact ih (stepCache c u) hc.2 j (Nat.lt_of_succ_lt_succ h)

/-- The folded cache reads `none` exactly when the starting cache did
and no folded update concerns the key. -/
theorem foldl_stepCache_none :
    ∀ (t : List MatchUpdate) (c : LiveMatchCache) (k : Int),
      (t.foldl stepCache c) k = none ↔
        (c k = none ∧ ∀ u ∈ t, u.state.match_id ≠ k) := by
  intro t
  induction t with
  | nil => intro c k; simp
  | cons u rest ih =>
    intro c k
    rw [List.foldl_cons, ih]
    constructor
    · rintro ⟨hstep, hrest⟩
      have hne : ¬(k = u.state.match_id) := by
        intro he
        rw [stepCache, if_pos he] at hstep
        exact Option.noConfusion hstep
      have hck : c k = none := by
        rw [stepCache, if_neg hne] at hstep
        exact hstep
      refine ⟨hck, ?_⟩
      intro v hv
      rcases List.mem_cons.mp hv with rfl | hv2
      · exact fun he => hne he.symm
      · exact hrest v hv2
    · rintro ⟨hck, hall⟩
      have hne : ¬(k = u.state.match_id) :=
        fun he => hall u (List.mem_cons_self u rest) he.symm
      refine ⟨?_, ?_⟩
      · rw [stepCache, if_neg hne]
        exact hck
      · intro v hv
        exact hall v (List.mem_cons_of_mem u hv)

/-- A `some` read of the folded cache comes from a folded update with
that match id, or from the starting cache. -/
theorem foldl_stepCache_some :
    ∀ (t : List MatchUpdate) (c : LiveMatchCache) (k : Int) (s : LiveMatchState),
      (t.foldl stepCache c) k = some s →
        (∃ u ∈ t, u.state.match_id = k ∧ u.state = s) ∨ c k = some s := by
  intro t
  induction t with
  | nil => intro c k s h; exact Or.inr h
  | cons u rest ih =>
    intro c k s h
    rw [List.foldl_cons] at h
    rcases ih (stepCache c u) k s h with ⟨v, hv, h1, h2⟩ | hsc
    · exact Or.inl ⟨v, List.mem_cons_of_mem u hv, h1, h2⟩
    · by_cases he : k = u.state.match_id
      · rw [stepCache, if_pos he] at hsc
        exact Or.inl ⟨u, List.mem_cons_self u rest, he.symm, Option.some.inj hsc⟩
      · rw [stepCache, if_neg he] at hsc
        exact Or.inr hsc

/-- The updates a fetcher run emits, starting from the empty cache of
process start. -/
def fetcher_trace (r : TeamResolver)
    (passes : List (List PolymarketMarket × Except Unit (List LiveMatchState))) :
    List MatchUpdate :=
  (run_passes r passes LiveMatchCache.empty).2

/-- C4 amended: in every fetcher run, an update's `previous_state` is
`none` exactly when no earlier update concerned the same match id — so
`previous_state = None` occurs only on the first observation of a
`(market, match)` pair, and the first update for a match id always
carries `None`; every `Some` carries the state of an earlier update for
the same match id. (The claim's per-pair form fails: the cache is keyed
by match id alone, so the first update of a pair whose match was
already observed through another market carries `Some`.) -/
theorem previous_state_none_iff_first (r : TeamResolver)
    (passes : List (List PolymarketMarket × Except Unit (List LiveMatchState)))
    (i : Nat) (h : i < (fetcher_trace r passes).length) :
    (((fetcher_trace r passes).get ⟨i, h⟩).previous_state = none ↔
      ∀ u ∈ (fetcher_trace r passes).take i,
        u.state.match_id ≠ ((fetcher_trace r passes).get ⟨i, h⟩).state.match_id) ∧
    ∀ s, ((fetcher_trace r passes).get ⟨i, h⟩).previous_state = some s →
      ∃ u ∈ (fetcher_trace r passes).take i,
        u.state.match_id = ((fetcher_trace r passes).get ⟨i, h⟩).state.match_id ∧
          u.state = s := by
  have hc : consistent LiveMatchCache.empty (fetcher_trace r passes) :=
    (run_passes_consistent r passes LiveMatchCache.empty).1
  have hget := consistent_get (fetcher_trace r passes) LiveMatchCache.empty hc i h
  constructor
  · rw [hget, foldl_stepCache_none]
    exact ⟨fun hx => hx.2, fun hx => ⟨rfl, hx⟩⟩
  · intro s hs
    rw [hget] at hs
    rcases foldl_stepCache_some _ _ _ _ hs with ⟨u, hu, h1, h2⟩ | hfalse
    · exact ⟨u, hu, h1, h2⟩
    · exact Option.noConfusion hfalse


/-- A market on teams `a` and `b` under condition id `m1`. -/
def ceMarket1 : PolymarketMarket :=
  { condition_id := "m1", question := "q", team_a := "a", team_b := "b"
    team_a_odds := 0, team_b_odds := 0, liquidity := 0, end_date := none
    active := true }

/-- A second market on the same teams under condition id `m2`. -/
def ceMarket2 : PolymarketMarket :=
  { condition_id := "m2", question := "q", team_a := "a", team_b := "b"
    team_a_odds := 0, team_b_odds := 0, liquidity := 0, end_date := none
    active := true }

/-- The live match both markets resolve to. -/
def ceLive : LiveMatchState :=
  { match_id := 7, league_name := none
    radiant := { name := "a", team_id := none, kills := 0, towers_killed := 0
                 barracks_killed := 0 }
    dire := { name := "b", team_id := none, kills := 0, towers_killed := 0
              barracks_killed := 0 }
    gold_lead := 0, game_time := 0, is_live := true, updated_at := 0 }

/-- Two passes: the scanner first exposes `m1`, then replaces it with
`m2`; both resolve to the same live match 7. -/
def cePasses : List (List PolymarketMarket × Except Unit (List LiveMatchState)) :=
  [([ceMarket1], Except.ok [ceLive]), ([ceMarket2], Except.ok [ceLive])]

/-- C4 counterexample. In the two-pass run of `cePasses`, the first —
and only — update for the pair `(m2, 7)` carries
`previous_state = Some`, because match 7 was already cached during the
`m1` pass: the claim that the first update of every `(market, match)`
pair carries `None` is false. -/
theorem fetcher_first_pair_some_counterexample :
    ¬(∀ i : Fin (fetcher_trace TeamResolver.new cePasses).length,
        (∀ j : Fin (fetcher_trace TeamResolver.new cePasses).length, j.1 < i.1 →
          ¬(((fetcher_trace TeamResolver.new cePasses).get j).market_condition_id =
              ((fetcher_trace TeamResolver.new cePasses).get i).market_condition_id ∧
            ((fetcher_trace TeamResolver.new cePasses).get j).state.match_id =
              ((fetcher_trace TeamResolver.new cePasses).get i).state.match_id)) →
        ((fetcher_trace TeamResolver.new cePasses).get i).previous_state = none) := by
  decide

/-- Witness for C4: the first update of a one-pass run, characterized
by the amended theorem. -/
theorem previous_state_none_iff_first_witness :
    (((fetcher_trace TeamResolver.new [([ceMarket1], Except.ok [ceLive])]).get
          ⟨0, by decide⟩).previous_state = none ↔
        ∀ u ∈ (fetcher_trace TeamResolver.new
            [([ceMarket1], Except.ok [ceLive])]).take 0,
          u.state.match_id ≠
            ((fetcher_trace TeamResolver.new [([ceMarket1], Except.ok [ceLive])]).get
              ⟨0, by decide⟩).state.match_id) ∧
      ∀ s, ((fetcher_trace TeamResolver.new [([ceMarket1], Except.ok [ceLive])]).get
          ⟨0, by decide⟩).previous_state = some s →
        ∃ u ∈ (fetcher_trace TeamResolver.new
            [([ceMarket1], Except.ok [ceLive])]).take 0,
          u.state.match_id =
              ((fetcher_trace TeamResolver.new
                  [([ceMarket1], Except.ok [ceLive])]).get
                ⟨0, by decide⟩).state.match_id ∧
            u.state = s :=
  previous_state_none_iff_first TeamResolver.new
    [([ceMarket1], Except.ok [ceLive])] 0 (by decide)

end EsportSignal
